import Mathlib

/-!
Shallow embedding of the region/endpoint subsystem of the qiniu python
binding crate (`src/http_client/region.rs`, `src/exceptions.rs`,
`src/lib.rs`).

The repository is a binding layer over the `qiniu_sdk` crate: the binding
code (constructors, error translation, accessors, the provider classes'
dispatch) is embedded directly from `region.rs`; the pieces of behaviour
that live inside `qiniu_sdk` (the host-string grammar, the static provider's
choice of region, the `AllRegionsProvider` cache engine, the merge performed
by `RegionsProviderEndpoints`) are not in the repository's own sources and
are modelled from the specification, each such definition carrying a
`Modelled from the spec:` doc comment.
-/

/-- Python-level exceptions raised by the binding layer, from
`src/exceptions.rs` (`create_exception!` / `create_exception_with_info!`).
Only the constructors the region subsystem raises are modelled; each carries
the message string the binding builds from the underlying error. -/
inductive PyErr where
  | invalidDomainWithPortError (msg : String)
  | invalidIpAddrWithPortError (msg : String)
  | invalidEndpointError (msg : String)
  | invalidServiceNameError (msg : String)
  | emptyRegionsProvider (msg : String)
  | apiCallError (msg : String)
deriving DecidableEq, Repr

/-! ## Character-level host parsing

`qiniu_sdk`'s `Endpoint`/`DomainWithPort`/`IpAddrWithPort` parsers are not
part of this repository. They are modelled from the spec (§3, §4.1): a host
is a domain name or an IP literal, with an optional `:port` suffix whose
port is a decimal number in 1–65535. Domains are modelled as non-empty
strings of letters, digits, hyphens and dots; IP literals as dotted-quad
IPv4 (four decimal octets ≤ 255, no leading zeros). Strings are handled as
their character lists. -/

/-- Characters permitted in a modelled domain name. Note `:` is excluded,
so a parsed host never contains a colon. -/
def isDomainChar (c : Char) : Bool :=
  c.isAlpha || c.isDigit || c = '-' || c = '.'

/-- Split a character list at its first colon: the part before it, and
(when a colon occurs) the part after it. A valid host contains no colon,
so on every accepted input this coincides with splitting at the colon that
separates host from port. -/
def breakAtFirstColon : List Char → List Char × Option (List Char)
  | [] => ([], none)
  | c :: rest =>
    if c = ':' then ([], some rest)
    else
      let (h, t) := breakAtFirstColon rest
      (c :: h, t)

/-- Split a character list on every dot (used for the IPv4 dotted quad). -/
def splitOnDot : List Char → List (List Char)
  | [] => [[]]
  | c :: rest =>
    if c = '.' then [] :: splitOnDot rest
    else
      match splitOnDot rest with
      | [] => [[c]]
      | h :: t => (c :: h) :: t

/-- Numeric value of a decimal digit character. -/
def charDigitVal (c : Char) : Nat := c.toNat - 48

/-- Value of a little-endian list of decimal digit values. -/
def digitsValLE : List Nat → Nat
  | [] => 0
  | d :: rest => d + 10 * digitsValLE rest

/-- Decimal value of a digit string (most significant first). -/
def digitsToNat (cs : List Char) : Nat :=
  digitsValLE ((cs.map charDigitVal).reverse)

/-- Character of a decimal digit value below 10. -/
def digitToChar (d : Nat) : Char := Char.ofNat (d + 48)

/-- Decimal rendering of a positive number below the fuel bound
(most significant digit first). -/
def natToCharsAux : Nat → Nat → List Char
  | 0, _ => []
  | fuel + 1, n =>
    if n = 0 then []
    else natToCharsAux fuel (n / 10) ++ [digitToChar (n % 10)]

/-- Decimal rendering of a natural number (most significant first),
as the binding's `format!` / `Display` produce. -/
def natToChars (n : Nat) : List Char :=
  if n = 0 then ['0'] else natToCharsAux n n

/-- A valid dotted-quad octet: non-empty digits, value ≤ 255, no leading
zero (matching the std IPv4 grammar the SDK parser relies on). -/
def validOctet (cs : List Char) : Bool :=
  !cs.isEmpty && cs.all Char.isDigit && digitsToNat cs ≤ 255 &&
    (cs.head? ≠ some '0' || cs = ['0'])

/-- Modelled from the spec: the IP-literal grammar (dotted-quad IPv4). The
first conjunct restricts the character set, so a valid IP literal contains
no colon. -/
def validIPv4 (cs : List Char) : Bool :=
  cs.all (fun c => c.isDigit || c = '.') &&
    (splitOnDot cs).length = 4 && (splitOnDot cs).all validOctet

/-- Modelled from the spec: the domain-name grammar (non-empty, letters /
digits / hyphens / dots). -/
def validDomain (cs : List Char) : Bool :=
  !cs.isEmpty && cs.all isDomainChar

/-- Parse a port suffix: non-empty decimal digits whose value is in
1–65535 (spec §3: "port, if present, is 1–65535"). -/
def portFromChars (cs : List Char) : Option Nat :=
  if !cs.isEmpty && cs.all Char.isDigit then
    let n := digitsToNat cs
    if 1 ≤ n ∧ n ≤ 65535 then some n else none
  else none

/-- The host of an `Endpoint`: a domain name or an IP address (tagged
union, spec §3), keeping the parsed characters verbatim. -/
inductive EndpointHost where
  | domain (d : List Char)
  | ip (a : List Char)
deriving DecidableEq, Repr

/-- The value inside the binding's `Endpoint` class: host plus optional
port, as produced by `qiniu_sdk`'s endpoint parser. -/
structure EndpointVal where
  host : EndpointHost
  port : Option Nat
deriving DecidableEq, Repr

/-- Classify a host character list: IP literals are recognised before
domain names (an ambiguous all-digit dotted string is an IP). -/
def mkEndpointHost (cs : List Char) (port : Option Nat) :
    Except String EndpointVal :=
  if validIPv4 cs then .ok ⟨.ip cs, port⟩
  else if validDomain cs then .ok ⟨.domain cs, port⟩
  else .error "invalid host"

/-- Modelled from the spec: `qiniu_sdk`'s `Endpoint` parser — split off an
optional `:port` suffix, validate the port range, then validate the host
as an IP literal or a domain name. -/
def parseEndpointCore (cs : List Char) : Except String EndpointVal :=
  match breakAtFirstColon cs with
  | (host, none) => mkEndpointHost host none
  | (host, some ps) =>
    match portFromChars ps with
    | none => .error "invalid port"
    | some p => mkEndpointHost host (some p)

/-- Modelled from the spec: `Display` of an endpoint — the host characters
verbatim, followed by `:port` when a port is present. -/
def formatEndpointCore (e : EndpointVal) : List Char :=
  (match e.host with
   | .domain d => d
   | .ip a => a) ++
  (match e.port with
   | none => []
   | some p => ':' :: natToChars p)

/-- The value inside the binding's `DomainWithPort` class. -/
structure DomainWithPortVal where
  domain : List Char
  port : Option Nat
deriving DecidableEq, Repr

/-- Modelled from the spec: `qiniu_sdk`'s `DomainWithPort` parser — like
the endpoint parser but the host must be a domain name. -/
def parseDomainWithPortCore (cs : List Char) : Except String DomainWithPortVal :=
  match breakAtFirstColon cs with
  | (host, none) =>
    if validDomain host then .ok ⟨host, none⟩ else .error "invalid domain"
  | (host, some ps) =>
    match portFromChars ps with
    | none => .error "invalid port"
    | some p =>
      if validDomain host then .ok ⟨host, some p⟩ else .error "invalid domain"

/-- The value inside the binding's `IpAddrWithPort` class. -/
structure IpAddrWithPortVal where
  ipAddr : List Char
  port : Option Nat
deriving DecidableEq, Repr

/-- Modelled from the spec: `qiniu_sdk`'s `IpAddrWithPort` parser — like
the endpoint parser but the host must be an IP literal. -/
def parseIpAddrWithPortCore (cs : List Char) : Except String IpAddrWithPortVal :=
  match breakAtFirstColon cs with
  | (host, none) =>
    if validIPv4 host then .ok ⟨host, none⟩ else .error "invalid ip address"
  | (host, some ps) =>
    match portFromChars ps with
    | none => .error "invalid port"
    | some p =>
      if validIPv4 host then .ok ⟨host, some p⟩ else .error "invalid ip address"

/-- `Endpoint::new` from `region.rs` lines 143–153: when a port argument is
given, compose `"{domain_or_ip_addr}:{port}"` and parse it, otherwise parse
the string alone; a parse error becomes `QiniuInvalidEndpointError`.
Strings are embedded as their character lists. -/
def Endpoint.new (domain_or_ip_addr : List Char) (port : Option Nat) :
    Except PyErr EndpointVal :=
  let composed :=
    match port with
    | some p => domain_or_ip_addr ++ ':' :: natToChars p
    | none => domain_or_ip_addr
  match parseEndpointCore composed with
  | .ok v => .ok v
  | .error e => .error (.invalidEndpointError e)

/-- `DomainWithPort::new` from `region.rs` lines 39–51: same composition,
with parse errors becoming `QiniuInvalidDomainWithPortError`. -/
def DomainWithPort.new (domain : List Char) (port : Option Nat) :
    Except PyErr DomainWithPortVal :=
  let composed :=
    match port with
    | some p => domain ++ ':' :: natToChars p
    | none => domain
  match parseDomainWithPortCore composed with
  | .ok v => .ok v
  | .error e => .error (.invalidDomainWithPortError e)

/-- `IpAddrWithPort::new` from `region.rs` lines 91–103: same composition,
with parse errors becoming `QiniuInvalidIpAddrWithPortError`. -/
def IpAddrWithPort.new (ip_addr : List Char) (port : Option Nat) :
    Except PyErr IpAddrWithPortVal :=
  let composed :=
    match port with
    | some p => ip_addr ++ ':' :: natToChars p
    | none => ip_addr
  match parseIpAddrWithPortCore composed with
  | .ok v => .ok v
  | .error e => .error (.invalidIpAddrWithPortError e)

/-! ## ServiceName, Endpoints, Region -/

/-- The binding's `ServiceName` enum, `region.rs` lines 195–218:
a closed enumeration Up/Io/Uc/Rs/Rsf/Api/S3. -/
inductive ServiceName where
  | up | io | uc | rs | rsf | api | s3
deriving DecidableEq, Repr

/-- The discriminants assigned in the source (`Up = 0` … `S3 = 6`). -/
def ServiceName.ordinal : ServiceName → Nat
  | .up => 0
  | .io => 1
  | .uc => 2
  | .rs => 3
  | .rsf => 4
  | .api => 5
  | .s3 => 6

/-- Model of `qiniu_sdk::http_client::ServiceName`. The SDK enum is
non-exhaustive; `future` stands for any variant added later, which is what
the `_` arm of the binding's `TryFrom` guards against. -/
inductive SdkServiceName where
  | up | io | uc | rs | rsf | api | s3
  | future
deriving DecidableEq, Repr

/-- `From<ServiceName> for qiniu_sdk::http_client::ServiceName`,
`region.rs` lines 220–232. -/
def ServiceName.toSdk : ServiceName → SdkServiceName
  | .up => .up
  | .io => .io
  | .uc => .uc
  | .rs => .rs
  | .rsf => .rsf
  | .api => .api
  | .s3 => .s3

/-- `TryFrom<qiniu_sdk::http_client::ServiceName> for ServiceName`,
`region.rs` lines 234–252: the seven known variants convert back, anything
else raises `QiniuInvalidServiceNameError`. -/
def ServiceName.tryFromSdk : SdkServiceName → Except PyErr ServiceName
  | .up => .ok .up
  | .io => .ok .io
  | .uc => .ok .uc
  | .rs => .ok .rs
  | .rsf => .ok .rsf
  | .api => .ok .api
  | .s3 => .ok .s3
  | .future => .error (.invalidServiceNameError "Unrecognized ServiceName")

/-- The value inside the binding's `Endpoints` class: an ordered pair of
endpoint lists (preferred, alternative). -/
structure EndpointsVal where
  preferred : List EndpointVal
  alternative : List EndpointVal
deriving DecidableEq, Repr

/-- `Endpoints::new` from `region.rs` lines 351–367: build from a preferred
list and an optional alternative list (the `EndpointsBuilder` starts both
lists empty and appends what is supplied). The elements arrive already
extracted as endpoint values. -/
def Endpoints.new (preferred_endpoints : List EndpointVal)
    (alternative_endpoints : Option (List EndpointVal)) : EndpointsVal :=
  { preferred := preferred_endpoints
    alternative :=
      match alternative_endpoints with
      | some alt => alt
      | none => [] }

/-- `Endpoints::get_preferred`, `region.rs` lines 370–373. -/
def Endpoints.get_preferred (e : EndpointsVal) : List EndpointVal :=
  e.preferred

/-- `Endpoints::get_alternative`, `region.rs` lines 376–379. -/
def Endpoints.get_alternative (e : EndpointsVal) : List EndpointVal :=
  e.alternative

/-- `Endpoints::__richcmp__` with `CompareOp::Eq`, `region.rs` lines
381–387: delegates to the SDK's structural equality, which compares the
preferred and alternative lists in order. -/
def Endpoints.eqPy (a b : EndpointsVal) : Bool :=
  decide (a.preferred = b.preferred) && decide (a.alternative = b.alternative)

/-- The value inside the binding's `Region` class: a region id, an S3
region id, and one `Endpoints` per service (spec §3). -/
structure RegionVal where
  region_id : List Char
  s3_region_id : List Char
  up : EndpointsVal
  io : EndpointsVal
  uc : EndpointsVal
  rs : EndpointsVal
  rsf : EndpointsVal
  api : EndpointsVal
  s3 : EndpointsVal
deriving DecidableEq, Repr

/-- The per-service `Endpoints` of a region, keyed by service name. -/
def RegionVal.endpointsOf (r : RegionVal) : ServiceName → EndpointsVal
  | .up => r.up
  | .io => r.io
  | .uc => r.uc
  | .rs => r.rs
  | .rsf => r.rsf
  | .api => r.api
  | .s3 => r.s3

/-- `Region::new` from `region.rs` lines 515–581 over the SDK's region
builder. Modelled from the spec for the builder's defaults (§4.3):
`s3_region_id` defaults to `region_id` when unset, and every service's
preferred/alternative endpoint list that was not supplied stays empty. -/
def Region.new (region_id : List Char) (s3_region_id : Option (List Char))
    (up_preferred_endpoints up_alternative_endpoints
     io_preferred_endpoints io_alternative_endpoints
     uc_preferred_endpoints uc_alternative_endpoints
     rs_preferred_endpoints rs_alternative_endpoints
     rsf_preferred_endpoints rsf_alternative_endpoints
     s3_preferred_endpoints s3_alternative_endpoints
     api_preferred_endpoints api_alternative_endpoints :
       Option (List EndpointVal)) : RegionVal :=
  { region_id := region_id
    s3_region_id := s3_region_id.getD region_id
    up := ⟨up_preferred_endpoints.getD [], up_alternative_endpoints.getD []⟩
    io := ⟨io_preferred_endpoints.getD [], io_alternative_endpoints.getD []⟩
    uc := ⟨uc_preferred_endpoints.getD [], uc_alternative_endpoints.getD []⟩
    rs := ⟨rs_preferred_endpoints.getD [], rs_alternative_endpoints.getD []⟩
    rsf := ⟨rsf_preferred_endpoints.getD [], rsf_alternative_endpoints.getD []⟩
    api := ⟨api_preferred_endpoints.getD [], api_alternative_endpoints.getD []⟩
    s3 := ⟨s3_preferred_endpoints.getD [], s3_alternative_endpoints.getD []⟩ }

/-- `Region::get_region_id`, `region.rs` lines 584–587. -/
def Region.get_region_id (r : RegionVal) : List Char := r.region_id

/-- `Region::get_s3_region_id`, `region.rs` lines 589–593. -/
def Region.get_s3_region_id (r : RegionVal) : List Char := r.s3_region_id

/-- `Region::get_up_preferred_endpoints`, `region.rs` lines 601–605. -/
def Region.get_up_preferred_endpoints (r : RegionVal) : List EndpointVal :=
  r.up.preferred

/-- `Region::get_up_alternative_endpoints`, `region.rs` lines 607–611. -/
def Region.get_up_alternative_endpoints (r : RegionVal) : List EndpointVal :=
  r.up.alternative

/-- `Region::get_io_preferred_endpoints`. -/
def Region.get_io_preferred_endpoints (r : RegionVal) : List EndpointVal :=
  r.io.preferred

/-- `Region::get_io_alternative_endpoints`. -/
def Region.get_io_alternative_endpoints (r : RegionVal) : List EndpointVal :=
  r.io.alternative

/-- `Region::get_uc_preferred_endpoints`. -/
def Region.get_uc_preferred_endpoints (r : RegionVal) : List EndpointVal :=
  r.uc.preferred

/-- `Region::get_uc_alternative_endpoints`. -/
def Region.get_uc_alternative_endpoints (r : RegionVal) : List EndpointVal :=
  r.uc.alternative

/-- `Region::get_rs_preferred_endpoints`. -/
def Region.get_rs_preferred_endpoints (r : RegionVal) : List EndpointVal :=
  r.rs.preferred

/-- `Region::get_rs_alternative_endpoints`. -/
def Region.get_rs_alternative_endpoints (r : RegionVal) : List EndpointVal :=
  r.rs.alternative

/-- `Region::get_rsf_preferred_endpoints`. -/
def Region.get_rsf_preferred_endpoints (r : RegionVal) : List EndpointVal :=
  r.rsf.preferred

/-- `Region::get_rsf_alternative_endpoints`. -/
def Region.get_rsf_alternative_endpoints (r : RegionVal) : List EndpointVal :=
  r.rsf.alternative

/-- `Region::get_api_preferred_endpoints`. -/
def Region.get_api_preferred_endpoints (r : RegionVal) : List EndpointVal :=
  r.api.preferred

/-- `Region::get_api_alternative_endpoints`. -/
def Region.get_api_alternative_endpoints (r : RegionVal) : List EndpointVal :=
  r.api.alternative

/-- `Region::get_s3_preferred_endpoints`. -/
def Region.get_s3_preferred_endpoints (r : RegionVal) : List EndpointVal :=
  r.s3.preferred

/-- `Region::get_s3_alternative_endpoints`. -/
def Region.get_s3_alternative_endpoints (r : RegionVal) : List EndpointVal :=
  r.s3.alternative

/-! ## RegionsProvider and EndpointsProvider -/

/-- The SDK's `StaticRegionsProvider`: built from one region and extended
with the rest, exactly as `RegionsProvider::new` does (`region.rs` lines
403–407), so the construction order is kept. -/
structure StaticRegionsProviderVal where
  first : RegionVal
  rest : List RegionVal
deriving DecidableEq, Repr

/-- Model of the boxed `dyn qiniu_sdk::http_client::RegionsProvider` the
binding class wraps (spec §9: dynamic dispatch — any concrete provider is
substitutable): a provider is observed through the outcomes of its SDK-level
`get` and `get_all` calls, errors being the SDK's response errors
(represented by their message). -/
structure DynRegionsProvider where
  getResult : Except String RegionVal
  getAllResult : Except String (List RegionVal)

/-- Modelled from the spec (§4.4): the static provider's `get` chooses
deterministically the first region in construction order, and `get_all`
returns every region in that order; neither can fail. -/
def StaticRegionsProviderVal.toDyn (p : StaticRegionsProviderVal) :
    DynRegionsProvider :=
  { getResult := .ok p.first
    getAllResult := .ok (p.first :: p.rest) }

/-- `RegionsProvider::new` from `region.rs` lines 401–411: an empty list
raises `QiniuEmptyRegionsProvider("regions is empty")` and constructs
nothing; otherwise a `StaticRegionsProvider` is built from the first region
and extended with the remaining ones. -/
def RegionsProvider.new (regions : List RegionVal) :
    Except PyErr StaticRegionsProviderVal :=
  match regions with
  | [] => .error (.emptyRegionsProvider "regions is empty")
  | r :: rest => .ok ⟨r, rest⟩

/-- `RegionsProvider::get` from `region.rs` lines 413–420: call the boxed
provider's blocking `get` and translate any SDK error into
`QiniuApiCallError`. -/
def RegionsProvider.get (p : DynRegionsProvider) : Except PyErr RegionVal :=
  match p.getResult with
  | .ok r => .ok r
  | .error e => .error (.apiCallError e)

/-- `RegionsProvider::get_all` from `region.rs` lines 422–432. -/
def RegionsProvider.get_all (p : DynRegionsProvider) :
    Except PyErr (List RegionVal) :=
  match p.getAllResult with
  | .ok rs => .ok rs
  | .error e => .error (.apiCallError e)

/-- Modelled from the spec (§5, §9): the SDK's suspending `async_get` runs
the same core computation as the blocking `get`, so on the same provider
state it produces the same outcome. -/
def DynRegionsProvider.asyncGetResult (p : DynRegionsProvider) :
    Except String RegionVal :=
  p.getResult

/-- Modelled from the spec (§5, §9): the suspending `async_get_all` runs
the same core computation as the blocking `get_all`. -/
def DynRegionsProvider.asyncGetAllResult (p : DynRegionsProvider) :
    Except String (List RegionVal) :=
  p.getAllResult

/-- `RegionsProvider::async_get` from `region.rs` lines 434–445: await the
boxed provider's `async_get` and translate any SDK error into
`QiniuApiCallError`, as the blocking variant does. -/
def RegionsProvider.async_get (p : DynRegionsProvider) :
    Except PyErr RegionVal :=
  match p.asyncGetResult with
  | .ok r => .ok r
  | .error e => .error (.apiCallError e)

/-- `RegionsProvider::async_get_all` from `region.rs` lines 447–461. -/
def RegionsProvider.async_get_all (p : DynRegionsProvider) :
    Except PyErr (List RegionVal) :=
  match p.asyncGetAllResult with
  | .ok rs => .ok rs
  | .error e => .error (.apiCallError e)

/-- Modelled from the spec (§4.5): the SDK's `RegionsProviderEndpoints` —
obtain the single region from the underlying provider, then merge the
requested services' preferred lists and alternative lists respectively, in
the order of the requested service names; an empty request defaults to the
upload service. -/
def regionsProviderEndpointsGet (p : DynRegionsProvider)
    (service_names : List ServiceName) : Except String EndpointsVal :=
  match p.getResult with
  | .error e => .error e
  | .ok r =>
    let svcs := if service_names.isEmpty then [ServiceName.up] else service_names
    .ok { preferred := (svcs.map fun s => (r.endpointsOf s).preferred).flatten
          alternative := (svcs.map fun s => (r.endpointsOf s).alternative).flatten }

/-- The suspending counterpart of `regionsProviderEndpointsGet`; modelled
from the spec (§5, §9): the same core computation. -/
def regionsProviderEndpointsAsyncGet (p : DynRegionsProvider)
    (service_names : List ServiceName) : Except String EndpointsVal :=
  regionsProviderEndpointsGet p service_names

/-- `EndpointsProvider::get_endpoints` from `region.rs` lines 271–290: a
missing `service_names` argument defaults to the empty list, the SDK call
is performed with those service names, and any SDK error is translated
into `QiniuApiCallError`. `EndpointsProvider::new` (lines 264–269) wraps
the given regions provider in `RegionsProviderEndpoints`, which the
underlying `DynRegionsProvider` stands for here. -/
def EndpointsProvider.get_endpoints (p : DynRegionsProvider)
    (service_names : Option (List ServiceName)) : Except PyErr EndpointsVal :=
  match regionsProviderEndpointsGet p (service_names.getD []) with
  | .ok e => .ok e
  | .error e => .error (.apiCallError e)

/-- `EndpointsProvider::async_get_endpoints` from `region.rs` lines
292–315: identical argument handling and error translation around the
suspending SDK call. -/
def EndpointsProvider.async_get_endpoints (p : DynRegionsProvider)
    (service_names : Option (List ServiceName)) : Except PyErr EndpointsVal :=
  match regionsProviderEndpointsAsyncGet p (service_names.getD []) with
  | .ok e => .ok e
  | .error e => .error (.apiCallError e)

/-! ## AllRegionsProvider cache engine

The cache engine lives in `qiniu_sdk`; the binding (`region.rs` lines
746–845) only constructs it and exposes it through the same
`RegionsProvider` surface. The engine is modelled from the spec (§4.6):
states Empty/Fresh/Stale, refresh on Empty or Stale, stale data served when
a refresh fails, a hard error when the cache was never populated. The
outcome of the discovery request is supplied as an explicit parameter. -/

/-- The provider's cache: nothing yet, or a region list with the timestamp
at which it was fetched. -/
inductive CacheState where
  | empty
  | cached (regions : List RegionVal) (fetchedAt : Nat)
deriving DecidableEq, Repr

/-- The state of one `AllRegionsProvider` instance: its cache and its
configured time-to-live. -/
structure AllRegionsState where
  cache : CacheState
  ttl : Nat
deriving DecidableEq, Repr

/-- Outcome of one authenticated discovery request to the directory
service (the credential/transport collaborators are outside the model). -/
inductive FetchOutcome where
  | success (regions : List RegionVal)
  | failure (err : String)
deriving DecidableEq, Repr

/-- A cache entry is fresh while `now − fetched_at < ttl` (spec §3); the
empty cache is never fresh. -/
def AllRegionsState.isFresh (st : AllRegionsState) (now : Nat) : Bool :=
  match st.cache with
  | .empty => false
  | .cached _ fetchedAt => now - fetchedAt < st.ttl

/-- Modelled from the spec (§4.6): one `get_all` call on the cache engine.
While fresh, serve the cache without refreshing. On Empty or Stale attempt
a refresh: on success replace the cache entry wholesale; on failure while
Stale serve the stale data with no error; on failure while Empty propagate
the discovery error. Returns the call's outcome and the provider state
after the call. -/
def allRegionsGetAllCore (st : AllRegionsState) (now : Nat)
    (fetch : FetchOutcome) :
    Except String (List RegionVal) × AllRegionsState :=
  if st.isFresh now then
    match st.cache with
    | .cached regions _ => (.ok regions, st)
    | .empty => (.error "unreachable: empty cache is never fresh", st)
  else
    match fetch with
    | .success regions =>
      (.ok regions, { st with cache := .cached regions now })
    | .failure err =>
      match st.cache with
      | .cached regions _ => (.ok regions, st)
      | .empty => (.error err, st)

/-- Modelled from the spec (§4.4, §4.6): the engine's `get` serves the
first region of what `get_all` would serve, failing the same way. -/
def allRegionsGetCore (st : AllRegionsState) (now : Nat)
    (fetch : FetchOutcome) : Except String RegionVal × AllRegionsState :=
  match allRegionsGetAllCore st now fetch with
  | (.ok (r :: _), st') => (.ok r, st')
  | (.ok [], st') => (.error "no region returned", st')
  | (.error e, st') => (.error e, st')

/-- The `dyn RegionsProvider` view of one `AllRegionsProvider` call site:
at a given instant and with a given discovery outcome, its `get`/`get_all`
results are the cache engine's. -/
def AllRegionsState.toDyn (st : AllRegionsState) (now : Nat)
    (fetch : FetchOutcome) : DynRegionsProvider :=
  { getResult := (allRegionsGetCore st now fetch).fst
    getAllResult := (allRegionsGetAllCore st now fetch).fst }

/-! ## Concrete sample values used by witness theorems -/

/-- A concrete domain endpoint. -/
def sampleUpEndpoint : EndpointVal := ⟨.domain ['u', 'p', '.', 'q', 'n'], none⟩

/-- A concrete IP endpoint with a port. -/
def sampleAltEndpoint : EndpointVal :=
  ⟨.ip ['1', '.', '2', '.', '3', '.', '4'], some 80⟩

/-- A concrete region whose upload service has one preferred and one
alternative endpoint; everything else left unset. -/
def sampleRegion : RegionVal :=
  Region.new ['z', '0'] none (some [sampleUpEndpoint]) (some [sampleAltEndpoint])
    none none none none none none none none none none none none

/-- A concrete region built with every optional builder argument unset. -/
def sampleDefaultRegion : RegionVal :=
  Region.new ['z'] none none none none none none none none none none none
    none none none none

/-! ## Claims -/

/-- C2: Constructing a static `RegionsProvider` from an empty region list
fails at construction time with `QiniuEmptyRegionsProvider` (message
"regions is empty") and constructs no provider, while any list with at
least one region constructs the provider holding the regions in
construction order (`region.rs` lines 401–411). -/
theorem static_provider_empty_fails_nonempty_succeeds :
    RegionsProvider.new [] =
      .error (.emptyRegionsProvider "regions is empty") ∧
    ∀ (r : RegionVal) (rest : List RegionVal),
      RegionsProvider.new (r :: rest) = .ok ⟨r, rest⟩ :=
  ⟨rfl, fun _ _ => rfl⟩

/-- C3: For every non-empty region list, construction of the static
provider succeeds and `get()` returns the first region in construction
order. Repeated `get()` calls on the same provider coincide because `get`
is a pure function of the immutable provider value (the source's `get`
takes `&self` and the static provider has no mutable state). -/
theorem static_provider_get_returns_first
    (regions : List RegionVal) (h : regions ≠ []) :
    ∃ p, RegionsProvider.new regions = .ok p ∧
      RegionsProvider.get p.toDyn = .ok (regions.head h) := by
  cases regions with
  | nil => exact absurd rfl h
  | cons r rest => exact ⟨⟨r, rest⟩, rfl, rfl⟩

/-- Witness for C3 at a concrete one-region list. -/
theorem static_provider_get_returns_first_witness :
    ∃ p, RegionsProvider.new [sampleRegion] = .ok p ∧
      RegionsProvider.get p.toDyn = .ok sampleRegion :=
  static_provider_get_returns_first [sampleRegion] (List.cons_ne_nil _ _)

/-- C5: Every provider operation's suspending variant is observably
equivalent to its blocking variant: on the same provider state and inputs,
`async_get` / `async_get_all` / `async_get_endpoints` produce the same
result value and the same error as `get` / `get_all` / `get_endpoints`
(`region.rs` lines 271–315 and 413–461; the SDK-level equivalence of the
blocking and suspending cores is modelled from spec §5/§9). This covers
every provider the binding exposes, since static providers and
`AllRegionsProvider` instances both enter through `DynRegionsProvider`. -/
theorem blocking_and_async_variants_equivalent :
    (∀ p : DynRegionsProvider,
      RegionsProvider.async_get p = RegionsProvider.get p) ∧
    (∀ p : DynRegionsProvider,
      RegionsProvider.async_get_all p = RegionsProvider.get_all p) ∧
    (∀ (p : DynRegionsProvider) (svcs : Option (List ServiceName)),
      EndpointsProvider.async_get_endpoints p svcs =
        EndpointsProvider.get_endpoints p svcs) :=
  ⟨fun _ => rfl, fun _ => rfl, fun _ _ => rfl⟩

/-- C7: `Endpoints` equality (`__richcmp__` with `Eq`, `region.rs` lines
381–387) is reflexive and symmetric, and is sensitive to which list the
elements appear in: whenever the preferred and alternative lists differ,
swapping their contents yields a value comparing unequal, even though both
values are built from the same multiset of elements. -/
theorem endpoints_eq_refl_symm_order_sensitive :
    (∀ a : EndpointsVal, Endpoints.eqPy a a = true) ∧
    (∀ a b : EndpointsVal, Endpoints.eqPy a b = Endpoints.eqPy b a) ∧
    (∀ p alt : List EndpointVal, p ≠ alt →
      Endpoints.eqPy ⟨p, alt⟩ ⟨alt, p⟩ = false) := by
  refine ⟨fun a => by simp [Endpoints.eqPy], fun a b => ?_, fun p alt h => ?_⟩
  · simp only [Endpoints.eqPy]
    rw [decide_eq_decide.mpr (eq_comm (a := a.preferred)),
      decide_eq_decide.mpr (eq_comm (a := a.alternative))]
  · simp [Endpoints.eqPy, h]

/-- Witness for C7: a concrete swapped pair compares unequal. -/
theorem endpoints_eq_order_sensitive_witness :
    Endpoints.eqPy ⟨[⟨.domain ['a'], none⟩], []⟩ ⟨[], [⟨.domain ['a'], none⟩]⟩ =
      false :=
  endpoints_eq_refl_symm_order_sensitive.2.2 [⟨.domain ['a'], none⟩] []
    (by decide)

/-- C10: Converting each of the seven `ServiceName` variants to the SDK
service name and back yields `Ok` of the same variant — the
`QiniuInvalidServiceNameError` branch of `TryFrom` is unreachable for
these seven (`region.rs` lines 220–252) — and the variants keep the
source's discriminants 0 through 6 (`region.rs` lines 195–218). -/
theorem service_name_roundtrip_and_ordinals :
    (∀ s : ServiceName, ServiceName.tryFromSdk s.toSdk = .ok s) ∧
    ServiceName.ordinal .up = 0 ∧ ServiceName.ordinal .io = 1 ∧
    ServiceName.ordinal .uc = 2 ∧ ServiceName.ordinal .rs = 3 ∧
    ServiceName.ordinal .rsf = 4 ∧ ServiceName.ordinal .api = 5 ∧
    ServiceName.ordinal .s3 = 6 :=
  ⟨fun s => by cases s <;> rfl, rfl, rfl, rfl, rfl, rfl, rfl, rfl⟩

/-- C9: A region built via the builder with `s3_region_id` unset has
`s3_region_id` equal to `region_id`, and every service whose preferred or
alternative endpoint list was left unset yields the empty list from the
corresponding accessor (`region.rs` lines 515–581, builder defaults
modelled from spec §4.3). -/
theorem region_builder_defaults (rid : List Char)
    (up_p up_a io_p io_a uc_p uc_a rs_p rs_a rsf_p rsf_a s3_p s3_a api_p api_a :
      Option (List EndpointVal)) (r : RegionVal)
    (hr : r = Region.new rid none up_p up_a io_p io_a uc_p uc_a rs_p rs_a
      rsf_p rsf_a s3_p s3_a api_p api_a) :
    Region.get_s3_region_id r = rid ∧
    (up_p = none → Region.get_up_preferred_endpoints r = []) ∧
    (up_a = none → Region.get_up_alternative_endpoints r = []) ∧
    (io_p = none → Region.get_io_preferred_endpoints r = []) ∧
    (io_a = none → Region.get_io_alternative_endpoints r = []) ∧
    (uc_p = none → Region.get_uc_preferred_endpoints r = []) ∧
    (uc_a = none → Region.get_uc_alternative_endpoints r = []) ∧
    (rs_p = none → Region.get_rs_preferred_endpoints r = []) ∧
    (rs_a = none → Region.get_rs_alternative_endpoints r = []) ∧
    (rsf_p = none → Region.get_rsf_preferred_endpoints r = []) ∧
    (rsf_a = none → Region.get_rsf_alternative_endpoints r = []) ∧
    (s3_p = none → Region.get_s3_preferred_endpoints r = []) ∧
    (s3_a = none → Region.get_s3_alternative_endpoints r = []) ∧
    (api_p = none → Region.get_api_preferred_endpoints r = []) ∧
    (api_a = none → Region.get_api_alternative_endpoints r = []) := by
  subst hr
  refine ⟨rfl, ?_, ?_, ?_, ?_, ?_, ?_, ?_, ?_, ?_, ?_, ?_, ?_, ?_, ?_⟩ <;>
    · intro h; subst h; rfl

/-- Witness for C9 at a concrete all-unset builder call. -/
theorem region_builder_defaults_witness :
    Region.get_s3_region_id sampleDefaultRegion = ['z'] ∧
    Region.get_up_preferred_endpoints sampleDefaultRegion = [] ∧
    Region.get_up_alternative_endpoints sampleDefaultRegion = [] ∧
    Region.get_io_preferred_endpoints sampleDefaultRegion = [] ∧
    Region.get_io_alternative_endpoints sampleDefaultRegion = [] ∧
    Region.get_uc_preferred_endpoints sampleDefaultRegion = [] ∧
    Region.get_uc_alternative_endpoints sampleDefaultRegion = [] ∧
    Region.get_rs_preferred_endpoints sampleDefaultRegion = [] ∧
    Region.get_rs_alternative_endpoints sampleDefaultRegion = [] ∧
    Region.get_rsf_preferred_endpoints sampleDefaultRegion = [] ∧
    Region.get_rsf_alternative_endpoints sampleDefaultRegion = [] ∧
    Region.get_s3_preferred_endpoints sampleDefaultRegion = [] ∧
    Region.get_s3_alternative_endpoints sampleDefaultRegion = [] ∧
    Region.get_api_preferred_endpoints sampleDefaultRegion = [] ∧
    Region.get_api_alternative_endpoints sampleDefaultRegion = [] := by
  obtain ⟨h1, h2, h3, h4, h5, h6, h7, h8, h9, h10, h11, h12, h13, h14, h15⟩ :=
    region_builder_defaults ['z'] none none none none none none none none
      none none none none none none sampleDefaultRegion rfl
  exact ⟨h1, h2 rfl, h3 rfl, h4 rfl, h5 rfl, h6 rfl, h7 rfl, h8 rfl, h9 rfl,
    h10 rfl, h11 rfl, h12 rfl, h13 rfl, h14 rfl, h15 rfl⟩

/-- C1: For `AllRegionsProvider`, when a `get`/`get_all` call triggers a
refresh (the cache is not fresh) and the refresh fails while a
previously-populated cache entry exists, the call returns the prior stale
region data without raising; when the refresh fails and the cache was
never populated, the call raises `QiniuApiCallError` (cache engine
modelled from spec §4.6; error translation from `region.rs` lines
413–432). -/
theorem all_regions_stale_served_empty_raises
    (st : AllRegionsState) (now : Nat) (err : String) :
    (∀ regions fetchedAt, st.cache = .cached regions fetchedAt →
      st.isFresh now = false →
      RegionsProvider.get_all (st.toDyn now (.failure err)) = .ok regions ∧
      ∀ r rest, regions = r :: rest →
        RegionsProvider.get (st.toDyn now (.failure err)) = .ok r) ∧
    (st.cache = .empty →
      RegionsProvider.get_all (st.toDyn now (.failure err)) =
        .error (.apiCallError err) ∧
      RegionsProvider.get (st.toDyn now (.failure err)) =
        .error (.apiCallError err)) := by
  constructor
  · intro regions fetchedAt hcache hfresh
    constructor
    · simp [RegionsProvider.get_all, AllRegionsState.toDyn,
        allRegionsGetAllCore, hcache, hfresh]
    · intro r rest hr
      subst hr
      simp [RegionsProvider.get, AllRegionsState.toDyn, allRegionsGetCore,
        allRegionsGetAllCore, hcache, hfresh]
  · intro hcache
    have hfresh : st.isFresh now = false := by
      simp [AllRegionsState.isFresh, hcache]
    constructor
    · simp [RegionsProvider.get_all, AllRegionsState.toDyn,
        allRegionsGetAllCore, hcache, hfresh]
    · simp [RegionsProvider.get, AllRegionsState.toDyn, allRegionsGetCore,
        allRegionsGetAllCore, hcache, hfresh]

/-- Witness for C1: a provider whose cache holds `[sampleRegion]` fetched
at time 0 with TTL 5 serves the stale data at time 10 when the refresh
fails, while a never-populated provider raises `QiniuApiCallError`. -/
theorem all_regions_stale_served_empty_raises_witness :
    RegionsProvider.get_all
      ((⟨.cached [sampleRegion] 0, 5⟩ : AllRegionsState).toDyn 10
        (.failure "transport error")) = .ok [sampleRegion] ∧
    RegionsProvider.get
      ((⟨.cached [sampleRegion] 0, 5⟩ : AllRegionsState).toDyn 10
        (.failure "transport error")) = .ok sampleRegion ∧
    RegionsProvider.get_all
      ((⟨.empty, 5⟩ : AllRegionsState).toDyn 10 (.failure "transport error")) =
      .error (.apiCallError "transport error") ∧
    RegionsProvider.get
      ((⟨.empty, 5⟩ : AllRegionsState).toDyn 10 (.failure "transport error")) =
      .error (.apiCallError "transport error") := by
  have hstale := (all_regions_stale_served_empty_raises
    ⟨.cached [sampleRegion] 0, 5⟩ 10 "transport error").1 [sampleRegion] 0
    rfl (by decide)
  have hempty := (all_regions_stale_served_empty_raises
    ⟨.empty, 5⟩ 10 "transport error").2 rfl
  exact ⟨hstale.1, hstale.2 sampleRegion [] rfl, hempty.1, hempty.2⟩

/-- C4: `get_endpoints` with the single service name `Up` on an
`EndpointsProvider` over a regions provider returns exactly the `Up`
service's preferred and alternative lists of the underlying (first)
region, unmodified and in order; when the underlying regions-provider call
fails, `get_endpoints` fails with `QiniuApiCallError` (`region.rs` lines
262–290; merge semantics modelled from spec §4.5). -/
theorem endpoints_provider_up_exact_and_error_propagated :
    (∀ (p : DynRegionsProvider) (r : RegionVal), p.getResult = .ok r →
      EndpointsProvider.get_endpoints p (some [ServiceName.up]) =
        .ok ⟨r.up.preferred, r.up.alternative⟩) ∧
    (∀ (p : DynRegionsProvider) (e : String), p.getResult = .error e →
      EndpointsProvider.get_endpoints p (some [ServiceName.up]) =
        .error (.apiCallError e)) := by
  constructor
  · intro p r hp
    simp [EndpointsProvider.get_endpoints, regionsProviderEndpointsGet, hp,
      RegionVal.endpointsOf]
  · intro p e hp
    simp [EndpointsProvider.get_endpoints, regionsProviderEndpointsGet, hp]

/-- Witness for C4: over the static provider holding `sampleRegion`, the
`Up` request returns exactly that region's upload lists; over a failing
provider, the same `QiniuApiCallError` surfaces. -/
theorem endpoints_provider_up_witness :
    EndpointsProvider.get_endpoints
      (StaticRegionsProviderVal.toDyn ⟨sampleRegion, []⟩)
      (some [ServiceName.up]) =
      .ok ⟨[sampleUpEndpoint], [sampleAltEndpoint]⟩ ∧
    EndpointsProvider.get_endpoints ⟨.error "boom", .error "boom"⟩
      (some [ServiceName.up]) = .error (.apiCallError "boom") :=
  ⟨endpoints_provider_up_exact_and_error_propagated.1
      (StaticRegionsProviderVal.toDyn ⟨sampleRegion, []⟩) sampleRegion rfl,
    endpoints_provider_up_exact_and_error_propagated.2
      ⟨.error "boom", .error "boom"⟩ "boom" rfl⟩

/-- C6: Construction of `Endpoint`, `DomainWithPort` and `IpAddrWithPort`
either succeeds or fails with exactly the corresponding validation error
class (constructing no value), and on malformed host strings — the empty
string, port 0 passed as the port argument, an out-of-range port composed
into "host:port", embedded whitespace — it fails (`region.rs` lines 39–51,
91–103, 143–153; the host grammar is modelled from spec §3/§4.1). -/
theorem malformed_host_construction_fails :
    (∀ (s : List Char) (port : Option Nat),
      (∃ v, Endpoint.new s port = .ok v) ∨
      (∃ msg, Endpoint.new s port = .error (.invalidEndpointError msg))) ∧
    (∀ (s : List Char) (port : Option Nat),
      (∃ v, DomainWithPort.new s port = .ok v) ∨
      (∃ msg, DomainWithPort.new s port =
        .error (.invalidDomainWithPortError msg))) ∧
    (∀ (s : List Char) (port : Option Nat),
      (∃ v, IpAddrWithPort.new s port = .ok v) ∨
      (∃ msg, IpAddrWithPort.new s port =
        .error (.invalidIpAddrWithPortError msg))) ∧
    Endpoint.new [] none = .error (.invalidEndpointError "invalid host") ∧
    DomainWithPort.new [] none =
      .error (.invalidDomainWithPortError "invalid domain") ∧
    IpAddrWithPort.new [] none =
      .error (.invalidIpAddrWithPortError "invalid ip address") ∧
    Endpoint.new ['h', 'o', 's', 't'] (some 0) =
      .error (.invalidEndpointError "invalid port") ∧
    DomainWithPort.new ['h', 'o', 's', 't'] (some 0) =
      .error (.invalidDomainWithPortError "invalid port") ∧
    IpAddrWithPort.new ['1', '.', '2', '.', '3', '.', '4'] (some 0) =
      .error (.invalidIpAddrWithPortError "invalid port") ∧
    Endpoint.new ['h', ':', '7', '0', '0', '0', '0'] none =
      .error (.invalidEndpointError "invalid port") ∧
    Endpoint.new ['a', ' ', 'b'] none =
      .error (.invalidEndpointError "invalid host") ∧
    DomainWithPort.new ['a', ' ', 'b'] none =
      .error (.invalidDomainWithPortError "invalid domain") ∧
    IpAddrWithPort.new ['1', ' ', '2'] none =
      .error (.invalidIpAddrWithPortError "invalid ip address") := by
  refine ⟨?_, ?_, ?_, rfl, rfl, rfl, rfl, rfl, rfl, rfl, rfl, rfl, rfl⟩
  · intro s port
    cases h : parseEndpointCore
        (match port with
         | some p => s ++ ':' :: natToChars p
         | none => s) with
    | ok v => exact .inl ⟨v, by simp [Endpoint.new, h]⟩
    | error msg => exact .inr ⟨msg, by simp [Endpoint.new, h]⟩
  · intro s port
    cases h : parseDomainWithPortCore
        (match port with
         | some p => s ++ ':' :: natToChars p
         | none => s) with
    | ok v => exact .inl ⟨v, by simp [DomainWithPort.new, h]⟩
    | error msg => exact .inr ⟨msg, by simp [DomainWithPort.new, h]⟩
  · intro s port
    cases h : parseIpAddrWithPortCore
        (match port with
         | some p => s ++ ':' :: natToChars p
         | none => s) with
    | ok v => exact .inl ⟨v, by simp [IpAddrWithPort.new, h]⟩
    | error msg => exact .inr ⟨msg, by simp [IpAddrWithPort.new, h]⟩

/-! ## Round-trip lemmas for the endpoint parser -/

/-- A colon-free list is returned whole with no port part. -/
theorem breakAtFirstColon_of_no_colon (cs : List Char) (h : ':' ∉ cs) :
    breakAtFirstColon cs = (cs, none) := by
  induction cs with
  | nil => rfl
  | cons c rest ih =>
    have hc : ¬c = ':' := fun hc => h (hc ▸ List.mem_cons_self _ _)
    simp [breakAtFirstColon, hc, ih fun hm => h (List.mem_cons_of_mem _ hm)]

/-- Splitting a colon-free host followed by `:port` recovers both parts. -/
theorem breakAtFirstColon_append (hl t : List Char) (h : ':' ∉ hl) :
    breakAtFirstColon (hl ++ ':' :: t) = (hl, some t) := by
  induction hl with
  | nil => simp [breakAtFirstColon]
  | cons c rest ih =>
    have hc : ¬c = ':' := fun hc => h (hc ▸ List.mem_cons_self _ _)
    simp [breakAtFirstColon, hc, ih fun hm => h (List.mem_cons_of_mem _ hm)]

/-- A valid domain name contains no colon. -/
theorem validDomain_no_colon (cs : List Char) (h : validDomain cs = true) :
    ':' ∉ cs := by
  intro hm
  simp only [validDomain, Bool.and_eq_true, List.all_eq_true] at h
  exact absurd (h.2 ':' hm) (by decide)

/-- A valid IP literal contains no colon. -/
theorem validIPv4_no_colon (cs : List Char) (h : validIPv4 cs = true) :
    ':' ∉ cs := by
  intro hm
  simp only [validIPv4, Bool.and_eq_true, List.all_eq_true] at h
  exact absurd (h.1.1 ':' hm) (by decide)

/-- Reading back the character of a digit value recovers the value. -/
theorem charDigitVal_digitToChar (d : Nat) (h : d < 10) :
    charDigitVal (digitToChar d) = d := by
  interval_cases d <;> rfl

/-- The character of a digit value is a digit character. -/
theorem isDigit_digitToChar (d : Nat) (h : d < 10) :
    (digitToChar d).isDigit = true := by
  interval_cases d <;> rfl

/-- Appending one digit multiplies the value by ten and adds the digit. -/
theorem digitsToNat_append_digit (l : List Char) (c : Char) :
    digitsToNat (l ++ [c]) = 10 * digitsToNat l + charDigitVal c := by
  simp only [digitsToNat, List.map_append, List.map_cons, List.map_nil,
    List.reverse_append, List.reverse_cons, List.reverse_nil, List.nil_append,
    List.singleton_append, digitsValLE]
  omega

/-- Rendering zero under any fuel yields the empty digit string. -/
theorem natToCharsAux_zero (fuel : Nat) : natToCharsAux fuel 0 = [] := by
  cases fuel <;> simp [natToCharsAux]

/-- For a positive number within the fuel bound, the rendered digit string
evaluates back to the number, is non-empty, and consists of digits. -/
theorem natToCharsAux_spec (fuel : Nat) :
    ∀ n, 0 < n → n ≤ fuel →
      digitsToNat (natToCharsAux fuel n) = n ∧
      natToCharsAux fuel n ≠ [] ∧
      ∀ c ∈ natToCharsAux fuel n, c.isDigit = true := by
  induction fuel with
  | zero => intro n h1 h2; omega
  | succ fuel ih =>
    intro n h1 h2
    have hn : ¬n = 0 := by omega
    have hmod : n % 10 < 10 := Nat.mod_lt _ (by omega)
    simp only [natToCharsAux, hn, if_false]
    by_cases hdiv : n / 10 = 0
    · have hsmall : n % 10 = n := by omega
      rw [hdiv, natToCharsAux_zero]
      refine ⟨?_, by simp, ?_⟩
      · simp only [List.nil_append, digitsToNat, List.map_cons, List.map_nil,
          List.reverse_cons, List.reverse_nil, List.nil_append, digitsValLE]
        rw [charDigitVal_digitToChar _ hmod]
        omega
      · intro c hc
        simp only [List.nil_append, List.mem_singleton] at hc
        exact hc ▸ isDigit_digitToChar _ hmod
    · have hdle : n / 10 ≤ fuel := by
        have := Nat.div_lt_self h1 (by omega : 1 < 10)
        omega
      obtain ⟨hval, hne, hdig⟩ := ih (n / 10) (by omega) hdle
      refine ⟨?_, by simp, ?_⟩
      · rw [digitsToNat_append_digit, hval, charDigitVal_digitToChar _ hmod]
        omega
      · intro c hc
        rcases List.mem_append.mp hc with hc | hc
        · exact hdig c hc
        · rw [List.mem_singleton] at hc
          exact hc ▸ isDigit_digitToChar _ hmod

/-- The rendered decimal of an in-range port parses back to the port. -/
theorem portFromChars_natToChars (p : Nat) (h1 : 1 ≤ p) (h2 : p ≤ 65535) :
    portFromChars (natToChars p) = some p := by
  have hp : ¬p = 0 := by omega
  obtain ⟨hval, hne, hdig⟩ := natToCharsAux_spec p p (by omega) le_rfl
  have hcs : natToChars p = natToCharsAux p p := by simp [natToChars, hp]
  have hempty : (natToCharsAux p p).isEmpty = false := by
    cases hx : natToCharsAux p p with
    | nil => exact absurd hx hne
    | cons _ _ => rfl
  have hall : (natToCharsAux p p).all Char.isDigit = true :=
    List.all_eq_true.mpr hdig
  rw [hcs]
  simp only [portFromChars, hempty, hall, Bool.not_false, Bool.and_self,
    if_true, hval]
  rw [if_pos ⟨h1, h2⟩]

/-- The rendered decimal of a number contains no colon. -/
theorem natToChars_no_colon (p : Nat) : ':' ∉ natToChars p := by
  intro hm
  by_cases hp : p = 0
  · rw [hp] at hm
    exact absurd hm (by decide)
  · rcases Nat.eq_zero_or_pos p with h | h
    · exact hp h
    · obtain ⟨_, _, hdig⟩ := natToCharsAux_spec p p h le_rfl
      have : natToChars p = natToCharsAux p p := by simp [natToChars, hp]
      rw [this] at hm
      exact absurd (hdig ':' hm) (by decide)

/-- Inversion for the port parser: an accepted port is in 1–65535. -/
theorem portFromChars_ok (cs : List Char) (p : Nat)
    (h : portFromChars cs = some p) : 1 ≤ p ∧ p ≤ 65535 := by
  unfold portFromChars at h
  by_cases h1 : (!cs.isEmpty && cs.all Char.isDigit) = true
  · rw [if_pos h1] at h
    by_cases h2 : 1 ≤ digitsToNat cs ∧ digitsToNat cs ≤ 65535
    · rw [if_pos h2] at h
      injection h with h
      omega
    · rw [if_neg h2] at h
      cases h
  · rw [if_neg h1] at h
    cases h

/-- Inversion for host classification: the produced value keeps the host
characters and port, an IP tag certifies the IP grammar, and a domain tag
certifies the domain grammar (with the IP grammar having failed first). -/
theorem mkEndpointHost_ok (cs : List Char) (port : Option Nat)
    (e : EndpointVal) (h : mkEndpointHost cs port = .ok e) :
    e.port = port ∧
    ((e.host = .ip cs ∧ validIPv4 cs = true) ∨
      (e.host = .domain cs ∧ validIPv4 cs = false ∧ validDomain cs = true)) := by
  unfold mkEndpointHost at h
  by_cases h1 : validIPv4 cs = true
  · rw [if_pos h1] at h
    injection h with h
    subst h
    exact ⟨rfl, .inl ⟨rfl, h1⟩⟩
  · rw [if_neg h1] at h
    by_cases h2 : validDomain cs = true
    · rw [if_pos h2] at h
      injection h with h
      subst h
      exact ⟨rfl, .inr ⟨rfl, Bool.eq_false_iff.mpr fun hx => h1 hx, h2⟩⟩
    · rw [if_neg h2] at h
      cases h

/-- The validity facts a successfully parsed endpoint satisfies. -/
def EndpointVal.wellFormed (e : EndpointVal) : Prop :=
  ((∃ a, e.host = .ip a ∧ validIPv4 a = true) ∨
    (∃ d, e.host = .domain d ∧ validIPv4 d = false ∧ validDomain d = true)) ∧
  ∀ p, e.port = some p → 1 ≤ p ∧ p ≤ 65535

/-- Unfolding the endpoint parser when the input has no colon part. -/
theorem parseEndpointCore_break_none (cs host : List Char)
    (hbreak : breakAtFirstColon cs = (host, none)) :
    parseEndpointCore cs = mkEndpointHost host none := by
  unfold parseEndpointCore
  rw [hbreak]

/-- Unfolding the endpoint parser when the input splits into host and
port part. -/
theorem parseEndpointCore_break_some (cs host ps : List Char)
    (hbreak : breakAtFirstColon cs = (host, some ps)) :
    parseEndpointCore cs =
      match portFromChars ps with
      | none => .error "invalid port"
      | some p => mkEndpointHost host (some p) := by
  unfold parseEndpointCore
  rw [hbreak]

/-- A successful parse produces a well-formed endpoint value. -/
theorem parseEndpointCore_ok_wellFormed (cs : List Char) (e : EndpointVal)
    (h : parseEndpointCore cs = .ok e) : e.wellFormed := by
  rcases hbreak : breakAtFirstColon cs with ⟨host, portOpt⟩
  cases portOpt with
  | none =>
    rw [parseEndpointCore_break_none cs host hbreak] at h
    obtain ⟨hport, hhost⟩ := mkEndpointHost_ok host none e h
    constructor
    · rcases hhost with ⟨hh, hv⟩ | ⟨hh, hv1, hv2⟩
      · exact .inl ⟨host, hh, hv⟩
      · exact .inr ⟨host, hh, hv1, hv2⟩
    · intro p hp
      rw [hport] at hp
      cases hp
  | some ps =>
    rw [parseEndpointCore_break_some cs host ps hbreak] at h
    cases hps : portFromChars ps with
    | none =>
      simp only [hps] at h
      exact Except.noConfusion h
    | some p =>
      simp only [hps] at h
      obtain ⟨hport, hhost⟩ := mkEndpointHost_ok host (some p) e h
      constructor
      · rcases hhost with ⟨hh, hv⟩ | ⟨hh, hv1, hv2⟩
        · exact .inl ⟨host, hh, hv⟩
        · exact .inr ⟨host, hh, hv1, hv2⟩
      · intro q hq
        rw [hport] at hq
        injection hq with hq
        exact hq ▸ portFromChars_ok ps p hps

/-- Formatting a well-formed endpoint value and re-parsing recovers it. -/
theorem parse_format_of_wellFormed (e : EndpointVal) (hw : e.wellFormed) :
    parseEndpointCore (formatEndpointCore e) = .ok e := by
  obtain ⟨hhost, hport⟩ := hw
  obtain ⟨host, port⟩ := e
  rcases hhost with ⟨a, ha, hv⟩ | ⟨d, hd, hv1, hv2⟩
  · cases ha
    have hnc : ':' ∉ a := validIPv4_no_colon a hv
    cases port with
    | none =>
      have hfmt : formatEndpointCore ⟨.ip a, none⟩ = a := by
        simp [formatEndpointCore]
      rw [hfmt, parseEndpointCore_break_none a a
        (breakAtFirstColon_of_no_colon a hnc)]
      simp [mkEndpointHost, hv]
    | some p =>
      obtain ⟨h1, h2⟩ := hport p rfl
      have hfmt : formatEndpointCore ⟨.ip a, some p⟩ = a ++ ':' :: natToChars p := by
        simp [formatEndpointCore]
      rw [hfmt, parseEndpointCore_break_some _ a (natToChars p)
        (breakAtFirstColon_append a (natToChars p) hnc),
        portFromChars_natToChars p h1 h2]
      simp [mkEndpointHost, hv]
  · cases hd
    have hnc : ':' ∉ d := validDomain_no_colon d hv2
    cases port with
    | none =>
      have hfmt : formatEndpointCore ⟨.domain d, none⟩ = d := by
        simp [formatEndpointCore]
      rw [hfmt, parseEndpointCore_break_none d d
        (breakAtFirstColon_of_no_colon d hnc)]
      simp [mkEndpointHost, hv1, hv2]
    | some p =>
      obtain ⟨h1, h2⟩ := hport p rfl
      have hfmt : formatEndpointCore ⟨.domain d, some p⟩ =
          d ++ ':' :: natToChars p := by
        simp [formatEndpointCore]
      rw [hfmt, parseEndpointCore_break_some _ d (natToChars p)
        (breakAtFirstColon_append d (natToChars p) hnc),
        portFromChars_natToChars p h1 h2]
      simp [mkEndpointHost, hv1, hv2]

/-- C8: For every valid "domain[:port]" or "ip[:port]" string, constructing
an `Endpoint` from it, formatting the endpoint back to a string, and
re-parsing yields the same endpoint value — in particular the same host
(domain or IP) and the same port-or-absence (`region.rs` lines 143–186;
parser and `Display` modelled from spec §4.1/§8). -/
theorem endpoint_parse_format_roundtrip (cs : List Char) (e : EndpointVal)
    (h : Endpoint.new cs none = .ok e) :
    Endpoint.new (formatEndpointCore e) none = .ok e := by
  have hparse : parseEndpointCore cs = .ok e := by
    cases hp : parseEndpointCore cs with
    | ok v =>
      simp only [Endpoint.new, hp] at h
      injection h with h
      subst h
      rfl
    | error msg =>
      simp only [Endpoint.new, hp] at h
      exact Except.noConfusion h
  have := parse_format_of_wellFormed e (parseEndpointCore_ok_wellFormed cs e hparse)
  simp [Endpoint.new, this]

/-- Witness for C8 at the concrete string "a.com:80". -/
theorem endpoint_parse_format_roundtrip_witness :
    Endpoint.new ['a', '.', 'c', 'o', 'm', ':', '8', '0'] none =
      .ok ⟨.domain ['a', '.', 'c', 'o', 'm'], some 80⟩ ∧
    Endpoint.new
      (formatEndpointCore ⟨.domain ['a', '.', 'c', 'o', 'm'], some 80⟩) none =
      .ok ⟨.domain ['a', '.', 'c', 'o', 'm'], some 80⟩ :=
  ⟨rfl, endpoint_parse_format_roundtrip ['a', '.', 'c', 'o', 'm', ':', '8', '0']
    ⟨.domain ['a', '.', 'c', 'o', 'm'], some 80⟩ rfl⟩
